import Mathlib

/-!
Shallow embedding of the pid package (src/pid/__init__.py): a PID-file
manager.  OS state (filesystem, file handles, SIGTERM disposition, atexit
registrations) is passed explicitly through a World record; read-only OS
facts (current pid, kill(pid, 0) outcomes, flock availability, directory
access rights, tempdir) live in an Env record.  Text is ASCII in this
model; file contents are modelled as strings of characters standing for
bytes.
-/

namespace PidSpec

/-- Whitespace characters stripped by Python str.strip (ASCII range). -/
def pyIsSpace (c : Char) : Bool :=
  c = ' ' || c = '\t' || c = '\n' || c = '\r' || c = '\x0b' || c = '\x0c'

/-- Model of Python str.strip: remove leading and trailing whitespace. -/
def pyStrip (s : String) : String :=
  ⟨((s.data.dropWhile pyIsSpace).reverse.dropWhile pyIsSpace).reverse⟩

/-- Model of Python s.split with a newline separator and maxsplit 1, keeping
element 0: everything before the first newline. -/
def pySplitFirstNl (s : String) : String :=
  ⟨s.data.takeWhile (fun c => c ≠ '\n')⟩

/-- Model of Python str.endswith. -/
def pyEndsWith (s suf : String) : Bool :=
  suf.data.isSuffixOf s.data

/-- Numeric value of a decimal digit character. -/
def digitVal (c : Char) : Nat := c.toNat - 48

/-- Digit run of a Python decimal integer literal: ASCII digits, a single
underscore allowed between two digits (PEP 515), accumulating the value. -/
def pyDigitsGo : Nat → List Char → Option Nat
  | acc, [] => some acc
  | acc, c :: rest =>
      if c = '_' then
        match rest with
        | [] => none
        | c2 :: rest2 =>
            if c2.isDigit then pyDigitsGo (10 * acc + digitVal c2) rest2
            else none
      else if c.isDigit then pyDigitsGo (10 * acc + digitVal c) rest
      else none

/-- Unsigned part of Python int(s): a nonempty digit run. -/
def pyIntCore : List Char → Option Nat
  | [] => none
  | c :: rest => if c.isDigit then pyDigitsGo (digitVal c) rest else none

/-- Model of Python int(s) on an already stripped argument: an optional sign
followed by a nonempty ASCII digit run (non-ASCII digits, which CPython also
accepts, are outside this model). -/
def pyParseInt (s : String) : Option Int :=
  match s.data with
  | [] => none
  | c :: rest =>
      if c = '+' then (pyIntCore rest).map (fun n => (n : Int))
      else if c = '-' then (pyIntCore rest).map (fun n => -(n : Int))
      else (pyIntCore (c :: rest)).map (fun n => (n : Int))

/-- Decimal digit character of d (for d below ten). -/
def digitChar (d : Nat) : Char := Char.ofNat (48 + d)

/-- Fuel-driven accumulator loop producing the decimal digits of n in front
of acc; fuel at least n suffices. -/
def natDigitsGo : Nat → Nat → List Nat → List Nat
  | 0, n, acc => n :: acc
  | fuel + 1, n, acc =>
      if n < 10 then n :: acc
      else natDigitsGo fuel (n / 10) (n % 10 :: acc)

/-- Decimal digit list of a natural number, most significant digit first. -/
def natDigits (n : Nat) : List Nat := natDigitsGo n n []

/-- Reference recursion for natDigits, used only in proofs. -/
def natDigitsSpec (n : Nat) : List Nat :=
  if n < 10 then [n] else natDigitsSpec (n / 10) ++ [n % 10]
decreasing_by exact Nat.div_lt_self (by omega) (by omega)

/-- Decimal string of a natural number. -/
def natStr (n : Nat) : String := ⟨(natDigits n).map digitChar⟩

/-- Model of Python percent-d formatting of an integer. -/
def pyFormatD (i : Int) : String :=
  if i < 0 then "-" ++ natStr i.natAbs else natStr i.natAbs

/-- Behaviour of a SIGTERM handler object. -/
inductive HandlerAction where
  | raiseSystemExit (code : Nat)
  | custom (tag : Nat)
  deriving DecidableEq, Repr

/-- Result of signal.getsignal(SIGTERM): ignored, default, unknown (None),
or an installed Python handler. -/
inductive Disposition where
  | sig_ign
  | sig_dfl
  | unknown
  | installed (h : HandlerAction)
  deriving DecidableEq, Repr

/-- Outcome of os.kill(pid, 0). -/
inductive KillResult where
  | ok
  | esrch
  | err (cause : String)
  deriving DecidableEq, Repr

/-- Errors raised by the component (subclasses of PidFileError in the
source, plus IOError for directory-access failures). -/
inductive PidErr where
  | unreadable (cause : String)
  | alreadyRunning (msg : String)
  | alreadyLocked (cause : String)
  | ioErr (msg : String)
  deriving DecidableEq, Repr

/-- Content and metadata of one file. -/
structure FileData where
  content : String
  mode : Nat
  fuid : Int
  fgid : Int
  deriving DecidableEq, Repr

/-- An open-file handle: backing path, position, closed flag. -/
structure Handle where
  hpath : String
  hpos : Nat
  hclosed : Bool
  deriving DecidableEq, Repr

/-- Mutable OS state threaded through the operations. -/
structure World where
  fs : List (String × FileData)
  dirs : List String
  handles : List Handle
  sigterm : Disposition
  atexitHooks : Nat
  opens : Nat
  deriving DecidableEq, Repr

/-- Read-only OS facts consulted by the operations. -/
structure Env where
  argv0base : String
  tmpdir : String
  cwd : String
  getpid : Int
  kill0 : Int → KillResult
  flockErr : String → Option String
  canRead : String → Bool
  canWrite : String → Bool

/-- The PidFile manager object.  Field enforce_dotpid_suffix renders the
source field enforce_dotpid_postfix. -/
structure PidFile where
  pid : Option Int
  pidname : Option String
  piddir : Option String
  enforce_dotpid_suffix : Bool
  filename : Option String
  fh : Option Nat
  lock_pidfile : Bool
  chmod : Nat
  uid : Int
  gid : Int
  force_tmpdir : Bool
  _is_setup : Bool
  deriving DecidableEq, Repr

/-- Model of the PidFile constructor applied to explicit arguments. -/
def PidFile.init (pidname piddir : Option String) (enforce lock : Bool)
    (chmod : Nat) (uid gid : Int) (force : Bool) : PidFile :=
  { pid := none, pidname := pidname, piddir := piddir,
    enforce_dotpid_suffix := enforce, filename := none, fh := none,
    lock_pidfile := lock, chmod := chmod, uid := uid, gid := gid,
    force_tmpdir := force, _is_setup := false }

/-- Model of the PidFile constructor with all defaults. -/
def PidFile.initDefault : PidFile :=
  PidFile.init none none true true 0o644 (-1) (-1) false

def World.lookupFs (w : World) (p : String) : Option FileData :=
  (w.fs.find? (fun e => e.1 == p)).map (fun e => e.2)

/-- Model of os.path.isfile at a path. -/
def World.isfile (w : World) (p : String) : Bool :=
  (w.lookupFs p).isSome

def World.setFs (w : World) (p : String) (d : FileData) : World :=
  { w with fs := (p, d) :: w.fs.filter (fun e => e.1 != p) }

/-- Model of os.remove. -/
def World.removeFs (w : World) (p : String) : World :=
  { w with fs := w.fs.filter (fun e => e.1 != p) }

def World.getHandle (w : World) (i : Nat) : Option Handle :=
  w.handles.get? i

def World.setHandle (w : World) (i : Nat) (h : Handle) : World :=
  { w with handles := w.handles.set i h }

/-- Model of open(path, "r"): a fresh handle at position zero.  Callers
guard on isfile first.  The opens counter records that an open happened,
for frame reasoning only. -/
def World.openRead (w : World) (p : String) : Nat × World :=
  (w.handles.length,
   { w with handles := w.handles ++ [⟨p, 0, false⟩], opens := w.opens + 1 })

/-- Model of open(path, "a+"): keep existing content, else create the file
empty (mode 0o644 stands for the umask-derived creation mode and owner -1
for the calling process, neither observed by any claim); position at end. -/
def World.openAppendPlus (w : World) (p : String) : Nat × World :=
  match w.lookupFs p with
  | some d =>
      (w.handles.length,
       { w with handles := w.handles ++ [⟨p, d.content.data.length, false⟩],
                opens := w.opens + 1 })
  | none =>
      let w1 := w.setFs p ⟨"", 0o644, -1, -1⟩
      (w1.handles.length,
       { w1 with handles := w1.handles ++ [⟨p, 0, false⟩],
                 opens := w1.opens + 1 })

/-- Model of fh.close: mark the handle closed.  Closing an already closed
Python 3 file object is a no-op, so this never fails. -/
def World.closeHandle (w : World) (i : Nat) : World :=
  match w.getHandle i with
  | some h => w.setHandle i ⟨h.hpath, h.hpos, true⟩
  | none => w

/-- Model of fh.seek(0); none models the ValueError CPython raises on a
closed file. -/
def World.seek0 (w : World) (i : Nat) : Option World :=
  match w.getHandle i with
  | some h =>
      if h.hclosed then none
      else some (w.setHandle i ⟨h.hpath, 0, false⟩)
  | none => none

/-- Model of fh.read(n): up to n characters from the current position; none
models the ValueError on a closed file (or the IOError when the backing
file is gone). -/
def World.readN (w : World) (i n : Nat) : Option (String × World) :=
  match w.getHandle i with
  | some h =>
      if h.hclosed then none
      else
        match w.lookupFs h.hpath with
        | some d =>
            some (⟨(d.content.data.drop h.hpos).take n⟩,
                  w.setHandle i
                    ⟨h.hpath, min (h.hpos + n) d.content.data.length, false⟩)
        | none => none
  | none => none

/-- Model of fh.truncate() with no argument: cut the file at the current
position. -/
def World.truncateAt (w : World) (i : Nat) : World :=
  match w.getHandle i with
  | some h =>
      match w.lookupFs h.hpath with
      | some d =>
          w.setFs h.hpath ⟨⟨d.content.data.take h.hpos⟩, d.mode, d.fuid, d.fgid⟩
      | none => w
  | none => w

/-- Model of fh.write in append mode followed by flush: the text lands at
the end of the file and the position moves to the new end; flush is a no-op
because writes are modelled through. -/
def World.writeAppend (w : World) (i : Nat) (s : String) : World :=
  match w.getHandle i with
  | some h =>
      match w.lookupFs h.hpath with
      | some d =>
          let w1 := w.setFs h.hpath ⟨d.content ++ s, d.mode, d.fuid, d.fgid⟩
          w1.setHandle i ⟨h.hpath, (d.content ++ s).data.length, false⟩
      | none => w
  | none => w

/-- Model of os.fchmod on the handle's file. -/
def World.fchmodAt (w : World) (i : Nat) (m : Nat) : World :=
  match w.getHandle i with
  | some h =>
      match w.lookupFs h.hpath with
      | some d => w.setFs h.hpath ⟨d.content, m, d.fuid, d.fgid⟩
      | none => w
  | none => w

/-- Model of os.fchown on the handle's file; a negative id leaves that id
unchanged. -/
def World.fchownAt (w : World) (i : Nat) (u g : Int) : World :=
  match w.getHandle i with
  | some h =>
      match w.lookupFs h.hpath with
      | some d =>
          w.setFs h.hpath ⟨d.content, d.mode,
            (if u ≥ 0 then u else d.fuid), (if g ≥ 0 then g else d.fgid)⟩
      | none => w
  | none => w

/-- The DEFAULT_PID_DIR constant of the source. -/
def DEFAULT_PID_DIR : String := "/var/run/"

/-- Name part of PidFile._make_filename: the pidname hint, else the program
base name with ".pid" appended; with suffix enforcement on, ".pid" is
appended when not already a suffix. -/
def resolve_pidname (env : Env) (pidname : Option String) (enforce : Bool) :
    String :=
  let n := match pidname with
    | none => env.argv0base ++ ".pid"
    | some s => s
  if enforce && !(pyEndsWith n ".pid") then n ++ ".pid" else n

/-- Directory part of PidFile._make_filename: the piddir hint when given,
else DEFAULT_PID_DIR when it is a directory and force_tmpdir is False, else
tempfile.gettempdir(). -/
def resolve_piddir (env : Env) (w : World) (piddir : Option String)
    (force_tmpdir : Bool) : String :=
  match piddir with
  | some d => d
  | none =>
      if w.dirs.contains DEFAULT_PID_DIR && !force_tmpdir then DEFAULT_PID_DIR
      else env.tmpdir

/-- Model of os.path.join for the two-argument uses in the source (the
second argument is never absolute there). -/
def pyJoin (d n : String) : String :=
  if d = "" then n
  else if pyEndsWith d "/" then d ++ n else d ++ "/" ++ n

/-- Model of Python str.startswith. -/
def pyStartsWith (s pre : String) : Bool :=
  pre.data.isPrefixOf s.data

/-- Model of os.path.abspath restricted to the paths this component builds:
an absolute path is returned as given (they are already normalised here), a
relative one is joined onto the current working directory. -/
def pyAbspath (env : Env) (p : String) : String :=
  if pyStartsWith p "/" then p else pyJoin env.cwd p

/-- Model of PidFile._make_filename: resolve name and directory, create the
directory when missing (os.makedirs, assumed to succeed), check read and
write access, and return the absolute joined path. -/
def _make_filename (env : Env) (self : PidFile) (w : World) :
    World × Except PidErr String :=
  let pidname := resolve_pidname env self.pidname self.enforce_dotpid_suffix
  let piddir := resolve_piddir env w self.piddir self.force_tmpdir
  let w1 := if w.dirs.contains piddir then w
            else { w with dirs := piddir :: w.dirs }
  if !(env.canRead piddir) then
    (w1, .error (.ioErr ("Pid file directory " ++ piddir ++ " cannot be read")))
  else if !(env.canWrite piddir) then
    (w1, .error (.ioErr ("Pid file directory " ++ piddir ++
                         " cannot be written to")))
  else
    (w1, .ok (pyAbspath env (pyJoin piddir pidname)))

/-- The handler installed by _register_term_signal: it raises SystemExit(1),
terminating the process with exit status 1 after atexit hooks run. -/
def sigterm_noop_handler : HandlerAction := .raiseSystemExit 1

/-- Model of PidFile._register_term_signal: install sigterm_noop_handler
exactly when signal.getsignal(SIGTERM) equals SIG_DFL; every other
disposition (ignored, unknown, custom handler) is left untouched. -/
def _register_term_signal (d : Disposition) : Disposition :=
  if d = .sig_dfl then .installed sigterm_noop_handler else d

/-- Model of PidFile._setup: on a not-yet-set-up manager whose filename is
still None, capture the pid, compute the filename (which may raise), hook
SIGTERM, then mark the manager set up; otherwise at most mark it set up. -/
def _setup (env : Env) (self : PidFile) (w : World) :
    PidFile × World × Except PidErr Unit :=
  if self._is_setup then (self, w, .ok ())
  else
    match self.filename with
    | none =>
        let self1 := { self with pid := some env.getpid }
        match _make_filename env self1 w with
        | (w1, .error e) => (self1, w1, .error e)
        | (w1, .ok fn) =>
            ({ self1 with filename := some fn, _is_setup := true },
             { w1 with sigterm := _register_term_signal w1.sigterm },
             .ok ())
    | some _ => ({ self with _is_setup := true }, w, .ok ())

/-- Model of PidFile.close: pick the handle (the argument when given, else
the held one), close it when there is one, then — in the finally clause,
which runs on every path including the early return — remove the file when
cleanup is requested, the filename is truthy and the file exists.  No field
of the manager is assigned. -/
def PidFile.close (self : PidFile) (fhArg : Option Nat) (cleanup : Bool)
    (w : World) : PidFile × World :=
  let fh := match fhArg with
    | none => self.fh
    | some i => some i
  let w1 := match fh with
    | none => w
    | some i => w.closeHandle i
  let w2 := match self.filename with
    | some f => if f != "" && w1.isfile f && cleanup then w1.removeFs f else w1
    | none => w1
  (self, w2)

/-- Model of the inner_check closure of PidFile.check on an open handle:
seek to the start, read sixteen bytes, keep the part before the first
newline, strip it; empty means no running instance; a read or parse failure
closes the handle with default cleanup (deleting the file) and reports an
unreadable pidfile; otherwise kill(pid, 0) probes liveness: ESRCH means not
running, any other error or success closes without cleanup and reports
already running. -/
def inner_check (env : Env) (self : PidFile) (i : Nat) (w : World) :
    PidFile × World × Except PidErr Unit :=
  match w.seek0 i with
  | none =>
      let (self1, w1) := self.close (some i) true w
      (self1, w1, .error (.unreadable "I/O operation on closed file"))
  | some w1 =>
      match w1.readN i 16 with
      | none =>
          let (self1, w2) := self.close (some i) true w1
          (self1, w2, .error (.unreadable "I/O operation on closed file"))
      | some (raw, w2) =>
          let pid_str := pyStrip (pySplitFirstNl raw)
          if pid_str = "" then (self, w2, .ok ())
          else
            match pyParseInt pid_str with
            | none =>
                let (self1, w3) := self.close (some i) true w2
                (self1, w3,
                 .error (.unreadable ("invalid literal for int: " ++ pid_str)))
            | some pid =>
                match env.kill0 pid with
                | .esrch => (self, w2, .ok ())
                | .err cause =>
                    let (self1, w3) := self.close (some i) false w2
                    (self1, w3, .error (.alreadyRunning cause))
                | .ok =>
                    let (self1, w3) := self.close (some i) false w2
                    (self1, w3,
                     .error (.alreadyRunning
                       ("Program already running with pid: " ++ pyFormatD pid)))

/-- Model of PidFile.check: run setup, then inspect the held handle when
there is one; otherwise, when the resolved filename is truthy and names an
existing file, open it read-only, run inner_check and close the transient
handle (the with-statement closes it on every path). -/
def PidFile.check (self : PidFile) (env : Env) (w : World) :
    PidFile × World × Except PidErr Unit :=
  match _setup env self w with
  | (self1, w1, .error e) => (self1, w1, .error e)
  | (self1, w1, .ok _) =>
      match self1.fh with
      | none =>
          match self1.filename with
          | some f =>
              if f != "" && w1.isfile f then
                let (i, w2) := w1.openRead f
                let (self2, w3, r) := inner_check env self1 i w2
                (self2, w3.closeHandle i, r)
              else (self1, w1, .ok ())
          | none => (self1, w1, .ok ())
      | some i => inner_check env self1 i w1

/-- Continuation of PidFile.create once the pidfile is open and the handle
stored: take the exclusive non-blocking flock when configured (failure
closes without cleanup and reports already locked), re-run check through
the held handle, apply chmod when nonzero and chown when an id is
non-negative, truncate and write the pid and a newline, flush, seek back,
and register the atexit close hook. -/
def create_after_open (env : Env) (self2 : PidFile) (f : String) (i : Nat)
    (w2 : World) : PidFile × World × Except PidErr Unit :=
  match (if self2.lock_pidfile then env.flockErr f else none) with
          | some cause =>
              let (self3, w3) := self2.close none false w2
              (self3, w3, .error (.alreadyLocked cause))
          | none =>
              match self2.check env w2 with
              | (self3, w3, .error e) => (self3, w3, .error e)
              | (self3, w3, .ok _) =>
                  let w4 := if self3.chmod != 0 then w3.fchmodAt i self3.chmod
                            else w3
                  let w5 := if self3.uid ≥ 0 || self3.gid ≥ 0 then
                              w4.fchownAt i self3.uid self3.gid
                            else w4
                  match self3.pid with
                  | none => (self3, w5, .error (.ioErr "pid is None"))
                  | some p =>
                      match w5.seek0 i with
                      | none =>
                          (self3, w5,
                           .error (.ioErr "I/O operation on closed file"))
                      | some w6 =>
                          let w7 := (w6.truncateAt i).writeAppend i
                                      (pyFormatD p ++ "\n")
                          match w7.seek0 i with
                          | none =>
                              (self3, w7,
                               .error (.ioErr "I/O operation on closed file"))
                          | some w8 =>
                              (self3,
                               { w8 with atexitHooks := w8.atexitHooks + 1 },
                               .ok ())

/-- Model of PidFile.create: setup, open the resolved path with mode a+,
store the handle, then continue with create_after_open. -/
def PidFile.create (self : PidFile) (env : Env) (w : World) :
    PidFile × World × Except PidErr Unit :=
  match _setup env self w with
  | (self1, w1, .error e) => (self1, w1, .error e)
  | (self1, w1, .ok _) =>
      match self1.filename with
      | none => (self1, w1, .error (.ioErr "open: filename is None"))
      | some f =>
          let (i, w2) := w1.openAppendPlus f
          let self2 := { self1 with fh := some i }
          create_after_open env self2 f i w2

/-! Concrete fixtures used to instantiate the theorems below. -/

/-- An Env where pid 42 is the current live process, pid 7 is alive but not
signalable, every other pid is gone, flock always succeeds and every
directory is accessible. -/
def envA : Env :=
  { argv0base := "myservice", tmpdir := "/tmp", cwd := "/home", getpid := 42,
    kill0 := fun p => if p = 42 then .ok else if p = 7 then .err "EPERM" else .esrch,
    flockErr := fun _ => none,
    canRead := fun _ => true, canWrite := fun _ => true }

/-- The same Env but with the advisory lock held by another process. -/
def envLock : Env :=
  { envA with flockErr := fun _ => some "Resource temporarily unavailable" }

/-- An empty world in which the runtime-state directory exists and SIGTERM
is at its default disposition. -/
def w0 : World :=
  { fs := [], dirs := [DEFAULT_PID_DIR], handles := [], sigterm := .sig_dfl,
    atexitHooks := 0, opens := 0 }

/-- The same world without the runtime-state directory. -/
def wNoVar : World := { w0 with dirs := [] }

/-- The path envA resolves for the default manager. -/
def pidPath : String := "/var/run/myservice.pid"

def fdGarbage : FileData := ⟨"garbage\n", 0o644, -1, -1⟩

/-- World with a pidfile holding unparsable text. -/
def wGarbage : World := { w0 with fs := [(pidPath, fdGarbage)] }

def fdStale : FileData := ⟨"999\n", 0o644, -1, -1⟩

/-- World with a pidfile naming a pid that is not running. -/
def wStale : World := { w0 with fs := [(pidPath, fdStale)] }

/-- The stale world with one open handle on the pidfile, as during create. -/
def wStaleHeld : World := { wStale with handles := [⟨pidPath, 0, false⟩] }

/-- The default manager after its first setup against envA and w0. -/
def mgrSetup : PidFile := (_setup envA PidFile.initDefault w0).1

def wSetup : World := (_setup envA PidFile.initDefault w0).2.1

/-- The set-up manager holding handle 0, as mid-create. -/
def mgrHeld : PidFile := { mgrSetup with fh := some 0 }

/-- The default manager after a successful create against envA and w0. -/
def mgrCreated : PidFile := (PidFile.initDefault.create envA w0).1

def wCreated : World := (PidFile.initDefault.create envA w0).2.1

/-- The sixteen characters fh.read(16) returns from position po of a file. -/
def readStr (d : FileData) (po : Nat) : String :=
  ⟨(d.content.data.drop po).take 16⟩

/-- The pid_str value inner_check computes from a file read at position 0:
first sixteen bytes, cut at the first newline, stripped. -/
def pidStrOf (d : FileData) : String :=
  pyStrip (pySplitFirstNl (readStr d 0))

/-! Lemmas about the Python text helpers. -/

theorem pyEndsWith_append (s t : String) : pyEndsWith (s ++ t) t = true := by
  simp [pyEndsWith]

theorem digitChar_isDigit {d : Nat} (h : d < 10) :
    (digitChar d).isDigit = true := by
  interval_cases d <;> decide

theorem digitChar_ne_underscore {d : Nat} (h : d < 10) :
    digitChar d ≠ '_' := by
  interval_cases d <;> decide

theorem digitChar_ne_nl {d : Nat} (h : d < 10) : digitChar d ≠ '\n' := by
  interval_cases d <;> decide

theorem digitChar_ne_plus {d : Nat} (h : d < 10) : digitChar d ≠ '+' := by
  interval_cases d <;> decide

theorem digitChar_ne_minus {d : Nat} (h : d < 10) : digitChar d ≠ '-' := by
  interval_cases d <;> decide

theorem pyIsSpace_digitChar {d : Nat} (h : d < 10) :
    pyIsSpace (digitChar d) = false := by
  interval_cases d <;> decide

theorem digitVal_digitChar {d : Nat} (h : d < 10) :
    digitVal (digitChar d) = d := by
  interval_cases d <;> decide

theorem natDigitsSpec_def (n : Nat) :
    natDigitsSpec n =
      if n < 10 then [n] else natDigitsSpec (n / 10) ++ [n % 10] := by
  rw [natDigitsSpec]

theorem natDigitsGo_spec (fuel : Nat) :
    ∀ n acc, n ≤ fuel → natDigitsGo fuel n acc = natDigitsSpec n ++ acc := by
  induction fuel with
  | zero =>
      intro n acc hn
      have : n = 0 := Nat.le_zero.mp hn
      subst this
      rw [natDigitsSpec_def]
      rfl
  | succ fuel ih =>
      intro n acc hn
      show (if n < 10 then n :: acc
            else natDigitsGo fuel (n / 10) (n % 10 :: acc)) =
          natDigitsSpec n ++ acc
      by_cases h : n < 10
      · rw [if_pos h, natDigitsSpec_def, if_pos h]
        rfl
      · rw [if_neg h, natDigitsSpec_def, if_neg h]
        rw [ih (n / 10) (n % 10 :: acc)
          (by omega)]
        simp

theorem natDigits_def (n : Nat) :
    natDigits n = if n < 10 then [n] else natDigits (n / 10) ++ [n % 10] := by
  have h1 : natDigits n = natDigitsSpec n := by
    unfold natDigits
    rw [natDigitsGo_spec n n [] (Nat.le_refl n)]
    simp
  have h2 : natDigits (n / 10) = natDigitsSpec (n / 10) := by
    unfold natDigits
    rw [natDigitsGo_spec (n / 10) (n / 10) [] (Nat.le_refl _)]
    simp
  rw [h1, h2, natDigitsSpec_def]

theorem natDigits_lt_ten (n : Nat) : ∀ d ∈ natDigits n, d < 10 := by
  induction n using Nat.strong_induction_on with
  | _ n ih =>
    rw [natDigits_def]
    by_cases h : n < 10
    · simp [h]
    · simp only [h, if_false, List.mem_append, List.mem_singleton]
      intro d hd
      rcases hd with hd | hd
      · exact ih (n / 10) (Nat.div_lt_self (by omega) (by omega)) d hd
      · omega

theorem natDigits_ne_nil (n : Nat) : natDigits n ≠ [] := by
  rw [natDigits_def]
  by_cases h : n < 10 <;> simp [h]

theorem natDigits_foldl (n : Nat) :
    (natDigits n).foldl (fun a d => 10 * a + d) 0 = n := by
  induction n using Nat.strong_induction_on with
  | _ n ih =>
    rw [natDigits_def]
    by_cases h : n < 10
    · simp [h]
    · simp only [h, if_false, List.foldl_append, List.foldl_cons, List.foldl_nil,
        ih (n / 10) (Nat.div_lt_self (by omega) (by omega))]
      omega

theorem pyDigitsGo_cons_digit (acc : Nat) (c : Char) (rest : List Char)
    (h1 : ¬(c = '_')) (h2 : c.isDigit = true) :
    pyDigitsGo acc (c :: rest) = pyDigitsGo (10 * acc + digitVal c) rest := by
  cases rest with
  | nil => rw [pyDigitsGo.eq_2]; simp [h1, h2, pyDigitsGo]
  | cons c2 r2 => rw [pyDigitsGo.eq_3]; simp [h1, h2]

theorem pyDigitsGo_map (l : List Nat) (acc : Nat) (h : ∀ d ∈ l, d < 10) :
    pyDigitsGo acc (l.map digitChar) =
      some (l.foldl (fun a d => 10 * a + d) acc) := by
  induction l generalizing acc with
  | nil => rfl
  | cons d ds ih =>
    have hd : d < 10 := h d (List.mem_cons_self d ds)
    rw [List.map_cons, List.foldl_cons,
      pyDigitsGo_cons_digit acc _ _ (digitChar_ne_underscore hd)
        (digitChar_isDigit hd), digitVal_digitChar hd]
    exact ih (10 * acc + d) (fun x hx => h x (List.mem_cons_of_mem d hx))

theorem pyIntCore_map (l : List Nat) (h : ∀ d ∈ l, d < 10) (hne : l ≠ []) :
    pyIntCore (l.map digitChar) =
      some (l.foldl (fun a d => 10 * a + d) 0) := by
  cases l with
  | nil => exact absurd rfl hne
  | cons d ds =>
    have hd : d < 10 := h d (List.mem_cons_self d ds)
    simp only [List.map_cons, pyIntCore, digitChar_isDigit hd, if_true,
      digitVal_digitChar hd, List.foldl_cons]
    have : (10 : Nat) * 0 + d = d := by omega
    rw [this]
    exact pyDigitsGo_map ds d (fun x hx => h x (List.mem_cons_of_mem d hx))

theorem natStr_data (n : Nat) : (natStr n).data = (natDigits n).map digitChar :=
  rfl

theorem natStr_ne_empty (n : Nat) : natStr n ≠ "" := by
  intro h
  have : (natStr n).data = ([] : List Char) := by rw [h]
  rw [natStr_data] at this
  exact natDigits_ne_nil n (List.map_eq_nil_iff.mp this)

theorem pyParseInt_natStr (n : Nat) : pyParseInt (natStr n) = some (n : Int) := by
  have hall := natDigits_lt_ten n
  cases hnd : natDigits n with
  | nil => exact absurd hnd (natDigits_ne_nil n)
  | cons d ds =>
    have hd : d < 10 := hall d (by rw [hnd]; exact List.mem_cons_self d ds)
    have hdata : (natStr n).data = digitChar d :: ds.map digitChar := by
      rw [natStr_data, hnd, List.map_cons]
    simp only [pyParseInt, hdata, digitChar_ne_plus hd, if_false,
      digitChar_ne_minus hd]
    rw [show digitChar d :: ds.map digitChar = (d :: ds).map digitChar from rfl]
    rw [pyIntCore_map (d :: ds) (by rw [← hnd]; exact hall) (by simp)]
    rw [← hnd, natDigits_foldl]
    rfl

theorem takeWhile_append_cons (p : Char → Bool) (l : List Char) (x : Char)
    (rest : List Char) (h : ∀ c ∈ l, p c = true) (hx : p x = false) :
    (l ++ x :: rest).takeWhile p = l := by
  induction l with
  | nil => simp [List.takeWhile_cons, hx]
  | cons a l2 ih =>
    have ha : p a = true := h a (List.mem_cons_self a l2)
    simp only [List.cons_append, List.takeWhile_cons, ha, if_true,
      List.cons.injEq, true_and]
    exact ih (fun c hc => h c (List.mem_cons_of_mem a hc))

theorem dropWhile_eq_self (p : Char → Bool) (l : List Char)
    (h : ∀ c ∈ l, p c = false) : l.dropWhile p = l := by
  cases l with
  | nil => rfl
  | cons a l2 =>
    simp [List.dropWhile_cons, h a (List.mem_cons_self a l2)]

theorem pyStrip_of_no_space (l : List Char)
    (h : ∀ c ∈ l, pyIsSpace c = false) : pyStrip ⟨l⟩ = ⟨l⟩ := by
  simp only [pyStrip]
  rw [dropWhile_eq_self pyIsSpace l h]
  rw [dropWhile_eq_self pyIsSpace l.reverse
    (fun c hc => h c (List.mem_reverse.mp hc))]
  simp

theorem pid_str_of_pidfile_content (m : Nat)
    (hlen : (natStr m).data.length ≤ 15) :
    pyStrip (pySplitFirstNl ⟨((natStr m ++ "\n").data.drop 0).take 16⟩) =
      natStr m := by
  have hdig : ∀ c ∈ (natStr m).data, c ≠ '\n' := by
    rw [natStr_data]
    intro c hc
    obtain ⟨d, hd, hcd⟩ := List.mem_map.mp hc
    rw [← hcd]
    exact digitChar_ne_nl (natDigits_lt_ten m d hd)
  have hsp : ∀ c ∈ (natStr m).data, pyIsSpace c = false := by
    rw [natStr_data]
    intro c hc
    obtain ⟨d, hd, hcd⟩ := List.mem_map.mp hc
    rw [← hcd]
    exact pyIsSpace_digitChar (natDigits_lt_ten m d hd)
  rw [List.drop_zero, String.data_append]
  have hnl : ("\n" : String).data = ['\n'] := rfl
  rw [hnl]
  rw [List.take_of_length_le
    (by rw [List.length_append, List.length_singleton]; omega)]
  simp only [pySplitFirstNl]
  rw [takeWhile_append_cons _ _ _ _ (fun c hc => by simp [hdig c hc]) (by simp)]
  exact pyStrip_of_no_space _ hsp

/-! Frame lemmas about the World primitives. -/

theorem setHandle_fs (w : World) (i : Nat) (h : Handle) :
    (w.setHandle i h).fs = w.fs := rfl

theorem setHandle_lookupFs (w : World) (i : Nat) (h : Handle) (p : String) :
    (w.setHandle i h).lookupFs p = w.lookupFs p := rfl

theorem setHandle_opens (w : World) (i : Nat) (h : Handle) :
    (w.setHandle i h).opens = w.opens := rfl

theorem closeHandle_fs (w : World) (i : Nat) :
    (w.closeHandle i).fs = w.fs := by
  unfold World.closeHandle
  split <;> rfl

theorem closeHandle_lookupFs (w : World) (i : Nat) (p : String) :
    (w.closeHandle i).lookupFs p = w.lookupFs p := by
  unfold World.lookupFs
  rw [closeHandle_fs]

theorem closeHandle_opens (w : World) (i : Nat) :
    (w.closeHandle i).opens = w.opens := by
  unfold World.closeHandle
  split <;> rfl

theorem closeHandle_dirs (w : World) (i : Nat) :
    (w.closeHandle i).dirs = w.dirs := by
  unfold World.closeHandle
  split <;> rfl

theorem closeHandle_atexit (w : World) (i : Nat) :
    (w.closeHandle i).atexitHooks = w.atexitHooks := by
  unfold World.closeHandle
  split <;> rfl

theorem closeHandle_sigterm (w : World) (i : Nat) :
    (w.closeHandle i).sigterm = w.sigterm := by
  unfold World.closeHandle
  split <;> rfl

theorem removeFs_opens (w : World) (p : String) :
    (w.removeFs p).opens = w.opens := rfl

theorem removeFs_handles (w : World) (p : String) :
    (w.removeFs p).handles = w.handles := rfl

theorem lookupFs_removeFs_self (w : World) (p : String) :
    (w.removeFs p).lookupFs p = none := by
  unfold World.removeFs World.lookupFs
  have hfind : (w.fs.filter (fun e => e.1 != p)).find? (fun e => e.1 == p) =
      none := by
    rw [List.find?_eq_none]
    intro x hx
    have := List.of_mem_filter hx
    simpa using this
  rw [hfind]
  rfl

theorem lookupFs_setFs_self (w : World) (p : String) (d : FileData) :
    (w.setFs p d).lookupFs p = some d := by
  unfold World.setFs World.lookupFs
  simp

theorem find?_filter_ne (l : List (String × FileData)) (p q : String)
    (h : q ≠ p) :
    (l.filter (fun e => e.1 != p)).find? (fun e => e.1 == q) =
      l.find? (fun e => e.1 == q) := by
  induction l with
  | nil => rfl
  | cons e l ih =>
    obtain ⟨k, v⟩ := e
    by_cases he : k = p
    · have h1 : (k != p) = false := by simp [he]
      have h2 : (k == q) = false := by
        simp only [beq_eq_false_iff_ne, ne_eq]
        intro hq
        exact h (by rw [← hq, he])
      simp only [List.filter_cons, h1, Bool.false_eq_true, if_false,
        List.find?_cons, h2, ih]
    · have h1 : (k != p) = true := by simp [he]
      simp only [List.filter_cons, h1, if_true, List.find?_cons]
      by_cases he2 : k = q
      · have h2 : (k == q) = true := by simp [he2]
        simp only [h2]
      · have h2 : (k == q) = false := by simp [he2]
        simp only [h2, ih]

theorem lookupFs_setFs_ne (w : World) (p q : String) (d : FileData)
    (h : q ≠ p) : (w.setFs p d).lookupFs q = w.lookupFs q := by
  unfold World.setFs World.lookupFs
  have hpq : (p == q) = false := by
    simp only [beq_eq_false_iff_ne, ne_eq]
    exact fun e => h e.symm
  simp only [List.find?_cons, hpq]
  rw [find?_filter_ne w.fs p q h]

theorem setFs_handles (w : World) (p : String) (d : FileData) :
    (w.setFs p d).handles = w.handles := rfl

theorem setFs_opens (w : World) (p : String) (d : FileData) :
    (w.setFs p d).opens = w.opens := rfl

theorem getHandle_setFs (w : World) (p : String) (d : FileData) (i : Nat) :
    (w.setFs p d).getHandle i = w.getHandle i := rfl

theorem getHandle_setHandle_self (w : World) (i : Nat) (a : Handle)
    (h : i < w.handles.length) :
    (w.setHandle i a).getHandle i = some a := by
  unfold World.setHandle World.getHandle
  simp [List.getElem?_set_self h]

theorem getHandle_lt (w : World) (i : Nat) (a : Handle)
    (h : w.getHandle i = some a) : i < w.handles.length := by
  unfold World.getHandle at h
  rw [List.get?_eq_getElem?] at h
  exact (List.getElem?_eq_some_iff.mp h).1

theorem seek0_of_open (w : World) (i : Nat) (f : String) (po : Nat)
    (h : w.getHandle i = some ⟨f, po, false⟩) :
    w.seek0 i = some (w.setHandle i ⟨f, 0, false⟩) := by
  unfold World.seek0
  rw [h]
  simp

theorem getHandle_concat (w : World) (l : List Handle) (a : Handle) :
    (World.getHandle { w with handles := l ++ [a] } l.length) = some a := by
  unfold World.getHandle
  rw [List.get?_eq_getElem?]
  exact List.getElem?_concat_length l a

/-! Helper lemmas about _make_filename and _setup. -/

theorem make_filename_fs (env : Env) (self : PidFile) (w : World) :
    (_make_filename env self w).1.fs = w.fs := by
  unfold _make_filename
  dsimp only
  split_ifs <;> rfl

theorem make_filename_handles (env : Env) (self : PidFile) (w : World) :
    (_make_filename env self w).1.handles = w.handles := by
  unfold _make_filename
  dsimp only
  split_ifs <;> rfl

theorem make_filename_opens (env : Env) (self : PidFile) (w : World) :
    (_make_filename env self w).1.opens = w.opens := by
  unfold _make_filename
  dsimp only
  split_ifs <;> rfl

theorem make_filename_atexit (env : Env) (self : PidFile) (w : World) :
    (_make_filename env self w).1.atexitHooks = w.atexitHooks := by
  unfold _make_filename
  dsimp only
  split_ifs <;> rfl

theorem make_filename_sigterm (env : Env) (self : PidFile) (w : World) :
    (_make_filename env self w).1.sigterm = w.sigterm := by
  unfold _make_filename
  dsimp only
  split_ifs <;> rfl

theorem setup_sets_is_setup (env : Env) (self s1 : PidFile) (w w1 : World)
    (u : Unit) (h : _setup env self w = (s1, w1, .ok u)) :
    s1._is_setup = true := by
  unfold _setup at h
  split at h
  · simp only [Prod.mk.injEq] at h
    obtain ⟨h1, -, -⟩ := h
    rw [← h1]
    assumption
  · split at h
    · dsimp only at h
      split at h
      · simp at h
      · simp only [Prod.mk.injEq] at h
        obtain ⟨h1, -, -⟩ := h
        rw [← h1]
    · simp only [Prod.mk.injEq] at h
      obtain ⟨h1, -, -⟩ := h
      rw [← h1]

/-- C6: with name hint custom and suffix enforcement the resolved base name
is custom.pid; without enforcement exactly custom; with no hint it is the
program base name with .pid appended; with enforcement the result always
ends with .pid. -/
theorem claim_C6_filename_derivation (env : Env) (hint : Option String) :
    resolve_pidname env (some "custom") true = "custom.pid" ∧
    resolve_pidname env (some "custom") false = "custom" ∧
    (∀ e : Bool, resolve_pidname env none e = env.argv0base ++ ".pid") ∧
    pyEndsWith (resolve_pidname env hint true) ".pid" = true := by
  refine ⟨rfl, rfl, ?_, ?_⟩
  · intro e
    simp [resolve_pidname, pyEndsWith_append]
  · cases hint with
    | none => simp [resolve_pidname, pyEndsWith_append]
    | some s =>
        by_cases hs : pyEndsWith s ".pid" = true
        · simp [resolve_pidname, hs]
        · have hs2 : pyEndsWith s ".pid" = false := by
            cases hval : pyEndsWith s ".pid" <;> simp_all
          simp [resolve_pidname, hs2, pyEndsWith_append]

/-- C7: the resolved directory is the hint when supplied, else the
runtime-state directory when it exists as a directory and force_tmpdir is
off, else the temporary directory. -/
theorem claim_C7_directory_resolution (env : Env) (w : World) :
    (∀ (d : String) (force : Bool), resolve_piddir env w (some d) force = d) ∧
    (∀ force : Bool, w.dirs.contains DEFAULT_PID_DIR = true → force = false →
        resolve_piddir env w none force = DEFAULT_PID_DIR) ∧
    (∀ force : Bool, w.dirs.contains DEFAULT_PID_DIR = false ∨ force = true →
        resolve_piddir env w none force = env.tmpdir) := by
  refine ⟨fun d force => rfl, ?_, ?_⟩
  · intro force h1 h2
    show (if w.dirs.contains DEFAULT_PID_DIR && !force then DEFAULT_PID_DIR
          else env.tmpdir) = DEFAULT_PID_DIR
    rw [h1, h2]
    rfl
  · intro force h
    show (if w.dirs.contains DEFAULT_PID_DIR && !force then DEFAULT_PID_DIR
          else env.tmpdir) = env.tmpdir
    rcases h with h | h <;> rw [h] <;> simp

theorem claim_C7_witness :
    resolve_piddir envA w0 (some "/opt") false = "/opt" ∧
    resolve_piddir envA w0 none false = DEFAULT_PID_DIR ∧
    resolve_piddir envA wNoVar none false = envA.tmpdir ∧
    resolve_piddir envA w0 none true = envA.tmpdir :=
  ⟨(claim_C7_directory_resolution envA w0).1 "/opt" false,
   (claim_C7_directory_resolution envA w0).2.1 false (by rfl) rfl,
   (claim_C7_directory_resolution envA wNoVar).2.2 false (Or.inl (by rfl)),
   (claim_C7_directory_resolution envA w0).2.2 true (Or.inr rfl)⟩

/-- C9: during setup a SIGTERM handler is installed exactly when the current
disposition is the default one; the installed handler raises SystemExit(1),
forcing exit status 1; the ignored, custom and unknown dispositions are left
untouched. -/
theorem claim_C9_sigterm_handler (d : Disposition) :
    (_register_term_signal .sig_dfl = .installed (.raiseSystemExit 1)) ∧
    (d ≠ .sig_dfl → _register_term_signal d = d) ∧
    (∀ (env : Env) (self s1 : PidFile) (w w1 : World),
        self._is_setup = false → self.filename = none →
        _setup env self w = (s1, w1, .ok ()) →
        w1.sigterm = _register_term_signal w.sigterm) := by
  refine ⟨rfl, ?_, ?_⟩
  · intro hd
    simp [_register_term_signal, hd]
  · intro env self s1 w w1 hns hfn h
    unfold _setup at h
    split at h
    · simp_all
    · split at h
      · dsimp only at h
        split at h
        · simp at h
        · rename_i wa fn heq
          simp only [Prod.mk.injEq] at h
          obtain ⟨-, h2, -⟩ := h
          rw [← h2]
          have hms := make_filename_sigterm env
            { self with pid := some env.getpid } w
          rw [heq] at hms
          exact congrArg _register_term_signal hms
      · simp_all

theorem claim_C9_witness :
    _register_term_signal .sig_ign = .sig_ign :=
  (claim_C9_sigterm_handler .sig_ign).2.1 (by decide)

/-- C8: setup is idempotent: once a setup has succeeded the manager is
marked set up, and any later setup call, with any environment and any
mutation of the name and directory hints, returns the manager and world
unchanged, so the resolved filename and captured pid are not recomputed. -/
theorem claim_C8_setup_idempotent (env env2 : Env) (self s1 : PidFile)
    (w w1 w2 : World) (a b : Option String)
    (h : _setup env self w = (s1, w1, .ok ())) :
    s1._is_setup = true ∧
    _setup env2 { s1 with pidname := a, piddir := b } w2 =
      ({ s1 with pidname := a, piddir := b }, w2, .ok ()) ∧
    ({ s1 with pidname := a, piddir := b }).filename = s1.filename ∧
    ({ s1 with pidname := a, piddir := b }).pid = s1.pid := by
  have hs1 := setup_sets_is_setup env self s1 w w1 () h
  refine ⟨hs1, ?_, rfl, rfl⟩
  simp [_setup, hs1]

theorem claim_C8_witness :
    mgrSetup._is_setup = true ∧
    _setup envLock { mgrSetup with pidname := some "x", piddir := none }
        wGarbage =
      ({ mgrSetup with pidname := some "x", piddir := none }, wGarbage,
       .ok ()) ∧
    ({ mgrSetup with pidname := some "x", piddir := none }).filename =
      mgrSetup.filename ∧
    ({ mgrSetup with pidname := some "x", piddir := none }).pid =
      mgrSetup.pid :=
  claim_C8_setup_idempotent envA envLock PidFile.initDefault mgrSetup
    w0 wSetup wGarbage (some "x") none rfl

/-! Lemmas about close, the file primitives and inner_check. -/

theorem close_fst (self : PidFile) (fhArg : Option Nat) (cleanup : Bool)
    (w : World) : (self.close fhArg cleanup w).1 = self := rfl

theorem close_opens (self : PidFile) (fhArg : Option Nat) (cleanup : Bool)
    (w : World) : (self.close fhArg cleanup w).2.opens = w.opens := by
  unfold PidFile.close
  dsimp only
  split <;> (try split) <;> (try split) <;>
    simp [closeHandle_opens, removeFs_opens]

theorem close_some_nocleanup (self : PidFile) (i : Nat) (w : World) :
    (self.close (some i) false w).2 = w.closeHandle i := by
  unfold PidFile.close
  dsimp only
  split
  · rename_i f heq
    simp
  · rfl

theorem close_some_cleanup (self : PidFile) (i : Nat) (w : World) (f : String)
    (hfn : self.filename = some f) (hne : (f != "") = true)
    (hfile : w.isfile f = true) :
    (self.close (some i) true w).2 = (w.closeHandle i).removeFs f := by
  unfold PidFile.close
  dsimp only
  rw [hfn]
  have hfile2 : (w.closeHandle i).isfile f = true := by
    unfold World.isfile
    rw [closeHandle_lookupFs]
    exact hfile
  simp [hne, hfile2]

theorem readN_of_open (w : World) (i : Nat) (f : String) (d : FileData)
    (h : w.getHandle i = some ⟨f, 0, false⟩) (hd : w.lookupFs f = some d) :
    w.readN i 16 = some (readStr d 0,
      w.setHandle i ⟨f, min (0 + 16) d.content.data.length, false⟩) := by
  unfold World.readN
  rw [h]
  simp only [Bool.false_eq_true, if_false]
  rw [hd]
  rfl

theorem getHandle_set_open (w : World) (i : Nat) (a b : Handle)
    (h : w.getHandle i = some a) :
    (w.setHandle i b).getHandle i = some b :=
  getHandle_setHandle_self w i b (by
    have := getHandle_lt w i a h
    simpa [World.setHandle] using this)

/-- Common context for running inner_check: the handle is open on path f at
some position and the file exists with data d; after seek and read the
world is w2 and the computed pid_str is pidStrOf d. -/
theorem inner_check_run (env : Env) (self : PidFile) (i : Nat) (w : World)
    (f : String) (po : Nat) (d : FileData)
    (hh : w.getHandle i = some ⟨f, po, false⟩)
    (hd : w.lookupFs f = some d) :
    inner_check env self i w =
      (let w2 := (w.setHandle i ⟨f, 0, false⟩).setHandle i
         ⟨f, min (0 + 16) d.content.data.length, false⟩
       let ps := pidStrOf d
       if ps = "" then (self, w2, .ok ())
       else
         match pyParseInt ps with
         | none =>
             (self, (self.close (some i) true w2).2,
              .error (.unreadable ("invalid literal for int: " ++ ps)))
         | some pid =>
             match env.kill0 pid with
             | .esrch => (self, w2, .ok ())
             | .err cause =>
                 (self, (self.close (some i) false w2).2,
                  .error (.alreadyRunning cause))
             | .ok =>
                 (self, (self.close (some i) false w2).2,
                  .error (.alreadyRunning
                    ("Program already running with pid: " ++ pyFormatD pid)))) := by
  unfold inner_check
  rw [seek0_of_open w i f po hh]
  have hh2 : (w.setHandle i ⟨f, 0, false⟩).getHandle i = some ⟨f, 0, false⟩ :=
    getHandle_set_open w i _ _ hh
  have hd2 : (w.setHandle i ⟨f, 0, false⟩).lookupFs f = some d := by
    rw [setHandle_lookupFs]
    exact hd
  dsimp only
  rw [readN_of_open _ i f d hh2 hd2]
  rfl

theorem seek0_opens (w : World) (i : Nat) (w1 : World)
    (h : w.seek0 i = some w1) : w1.opens = w.opens := by
  unfold World.seek0 at h
  split at h
  · split at h
    · simp at h
    · simp only [Option.some.injEq] at h
      rw [← h]
      rfl
  · simp at h

theorem seek0_fs (w : World) (i : Nat) (w1 : World)
    (h : w.seek0 i = some w1) : w1.fs = w.fs := by
  unfold World.seek0 at h
  split at h
  · split at h
    · simp at h
    · simp only [Option.some.injEq] at h
      rw [← h]
      rfl
  · simp at h

theorem readN_opens (w : World) (i n : Nat) (s : String) (w2 : World)
    (h : w.readN i n = some (s, w2)) : w2.opens = w.opens := by
  unfold World.readN at h
  split at h
  · split at h
    · simp at h
    · split at h
      · simp only [Option.some.injEq, Prod.mk.injEq] at h
        rw [← h.2]
        rfl
      · simp at h
  · simp at h

theorem readN_fs (w : World) (i n : Nat) (s : String) (w2 : World)
    (h : w.readN i n = some (s, w2)) : w2.fs = w.fs := by
  unfold World.readN at h
  split at h
  · split at h
    · simp at h
    · split at h
      · simp only [Option.some.injEq, Prod.mk.injEq] at h
        rw [← h.2]
        rfl
      · simp at h
  · simp at h

theorem inner_check_opens (env : Env) (self : PidFile) (i : Nat) (w : World) :
    (inner_check env self i w).2.1.opens = w.opens := by
  unfold inner_check
  split
  · dsimp only
    rw [close_opens]
  · rename_i w1 hseek
    split
    · dsimp only
      rw [close_opens, seek0_opens w i w1 hseek]
    · rename_i raw w2 hread
      have hw2 : w2.opens = w.opens := by
        rw [readN_opens w1 i 16 raw w2 hread, seek0_opens w i w1 hseek]
      dsimp only
      split
      · exact hw2
      · split
        · dsimp only
          rw [close_opens]
          exact hw2
        · split <;> dsimp only <;> (try rw [close_opens]) <;> exact hw2

theorem getHandle_of_handles (w : World) (l : List Handle) (a : Handle)
    (h : w.handles = l ++ [a]) : w.getHandle l.length = some a := by
  unfold World.getHandle
  rw [h, List.get?_eq_getElem?]
  exact List.getElem?_concat_length l a

theorem closeHandle_getHandle (w : World) (i : Nat) (h : Handle)
    (hh : w.getHandle i = some h) :
    (w.closeHandle i).getHandle i = some ⟨h.hpath, h.hpos, true⟩ := by
  unfold World.closeHandle
  rw [hh]
  exact getHandle_set_open w i h _ hh

theorem close_none_nocleanup (self : PidFile) (i : Nat) (w : World)
    (hfh : self.fh = some i) :
    (self.close none false w).2 = w.closeHandle i := by
  unfold PidFile.close
  dsimp only
  rw [hfh]
  split
  · simp
  · rfl

theorem check_held (env : Env) (self : PidFile) (w : World) (i : Nat)
    (hsetup : self._is_setup = true) (hfh : self.fh = some i) :
    self.check env w = inner_check env self i w := by
  unfold PidFile.check
  have hst : _setup env self w = (self, w, .ok ()) := by
    unfold _setup
    rw [if_pos hsetup]
  rw [hst]
  dsimp only
  rw [hfh]

theorem check_standalone (env : Env) (self : PidFile) (w : World) (f : String)
    (hsetup : self._is_setup = true) (hfh : self.fh = none)
    (hfn : self.filename = some f) (hne : (f != "") = true)
    (hfile : w.isfile f = true) :
    self.check env w =
      ((inner_check env self w.handles.length
          { w with handles := w.handles ++ [⟨f, 0, false⟩],
                   opens := w.opens + 1 }).1,
       (inner_check env self w.handles.length
          { w with handles := w.handles ++ [⟨f, 0, false⟩],
                   opens := w.opens + 1 }).2.1.closeHandle w.handles.length,
       (inner_check env self w.handles.length
          { w with handles := w.handles ++ [⟨f, 0, false⟩],
                   opens := w.opens + 1 }).2.2) := by
  unfold PidFile.check
  have hst : _setup env self w = (self, w, .ok ()) := by
    unfold _setup
    rw [if_pos hsetup]
  rw [hst]
  simp only [hfh, hfn, hne, hfile, Bool.and_self, if_true, World.openRead]

/-- C10: close returns the manager with every stored field unchanged (the
handle field still names the now-closed handle and the filename is intact),
a check on a manager still holding a handle goes through inner_check on
that stored handle, and inner_check never opens the file at the resolved
path (the opens counter is untouched), so such a check inspects the stale
handle instead of reopening. -/
theorem claim_C10_close_keeps_fields :
    (∀ (self : PidFile) (fhArg : Option Nat) (cleanup : Bool) (w : World),
        (self.close fhArg cleanup w).1 = self) ∧
    (∀ (env : Env) (self : PidFile) (w : World) (i : Nat),
        self._is_setup = true → self.fh = some i →
        self.check env w = inner_check env self i w) ∧
    (∀ (env : Env) (self : PidFile) (i : Nat) (w : World),
        (inner_check env self i w).2.1.opens = w.opens) :=
  ⟨close_fst,
   fun env self w i h1 h2 => check_held env self w i h1 h2,
   inner_check_opens⟩

theorem claim_C10_witness :
    mgrHeld.check envA wStaleHeld = inner_check envA mgrHeld 0 wStaleHeld :=
  claim_C10_close_keeps_fields.2.1 envA mgrHeld wStaleHeld 0 rfl rfl

/-- C5 counterexample: a manager with no handle anywhere but a resolved
filename naming an existing file: close with the default cleanup deletes
that file, contradicting the claim that the filesystem is unchanged. -/
theorem claim_C5_counterexample :
    mgrSetup.fh = none ∧
    wGarbage.isfile pidPath = true ∧
    (mgrSetup.close none true wGarbage).2.isfile pidPath = false :=
  ⟨rfl, rfl, rfl⟩

/-- C5 amended: when no handle is available close closes nothing — the
manager and the handle table are untouched — but the finally clause still
runs: with cleanup requested, a truthy resolved filename and that file
present on disk, the file is deleted; with cleanup off, no filename, or no
file, the filesystem is unchanged. -/
theorem claim_C5_close_no_handle (self : PidFile) (w : World) (cleanup : Bool)
    (hfh : self.fh = none) :
    (self.close none cleanup w).1 = self ∧
    (self.close none cleanup w).2.handles = w.handles ∧
    (∀ f, self.filename = some f → (f != "") = true → w.isfile f = true →
        cleanup = true → (self.close none cleanup w).2 = w.removeFs f) ∧
    (cleanup = false → (self.close none cleanup w).2 = w) ∧
    (self.filename = none → (self.close none cleanup w).2 = w) ∧
    (∀ f, self.filename = some f → w.isfile f = false →
        (self.close none cleanup w).2 = w) := by
  refine ⟨rfl, ?_, ?_, ?_, ?_, ?_⟩
  · unfold PidFile.close
    dsimp only
    rw [hfh]
    split
    · split
      · rfl
      · rfl
    · rfl
  · intro f hfn hne hfile hcl
    unfold PidFile.close
    dsimp only
    rw [hfh, hfn, hcl]
    simp [hne, hfile]
  · intro hcl
    unfold PidFile.close
    dsimp only
    rw [hfh, hcl]
    split
    · simp
    · rfl
  · intro hfn
    unfold PidFile.close
    dsimp only
    rw [hfh, hfn]
  · intro f hfn hfile
    unfold PidFile.close
    dsimp only
    rw [hfh, hfn]
    simp [hfile]

theorem claim_C5_witness :
    (mgrSetup.close none true wGarbage).2 = wGarbage.removeFs pidPath ∧
    (mgrSetup.close none false wGarbage).2 = wGarbage :=
  ⟨(claim_C5_close_no_handle mgrSetup wGarbage true rfl).2.2.1 pidPath
      rfl rfl rfl rfl,
   (claim_C5_close_no_handle mgrSetup wGarbage false rfl).2.2.2.1 rfl⟩

/-- C4 counterexample: a check on a manager already holding the open handle
(the state create is in when it re-checks) whose recorded pid is not
running returns cleanly and leaves the file alone, but the inspected handle
stays open — it is not closed as the claim states. -/
theorem claim_C4_counterexample :
    (mgrHeld.check envA wStaleHeld).2.2 = .ok () ∧
    ((mgrHeld.check envA wStaleHeld).2.1.getHandle 0).map Handle.hclosed =
      some false ∧
    (mgrHeld.check envA wStaleHeld).2.1.lookupFs pidPath = some fdStale :=
  ⟨rfl, rfl, rfl⟩

/-- C4 amended: when the probe of the recorded pid reports ESRCH, check
concludes no running instance, returns without raising and without deleting
the file; a transient handle check opened itself is closed by its with
statement, while a handle the manager already held is left open for the
in-progress create flow. -/
theorem claim_C4_esrch_clean (env : Env) (self : PidFile) (w : World)
    (f : String) (d : FileData) (pid : Int)
    (hsetup : self._is_setup = true) (hfn : self.filename = some f)
    (hne : (f != "") = true) (hd : w.lookupFs f = some d)
    (hparse : pyParseInt (pidStrOf d) = some pid)
    (hkill : env.kill0 pid = .esrch) :
    (self.fh = none →
       (self.check env w).2.2 = .ok () ∧
       (self.check env w).2.1.lookupFs f = some d ∧
       ((self.check env w).2.1.getHandle w.handles.length).map Handle.hclosed
         = some true) ∧
    (∀ i po, self.fh = some i → w.getHandle i = some ⟨f, po, false⟩ →
       (self.check env w).2.2 = .ok () ∧
       (self.check env w).2.1.lookupFs f = some d ∧
       ((self.check env w).2.1.getHandle i).map Handle.hclosed =
         some false) := by
  have hps : pidStrOf d ≠ "" := by
    intro hempty
    rw [hempty] at hparse
    simp [pyParseInt] at hparse
  constructor
  · intro hfh
    have hfile : w.isfile f = true := by
      unfold World.isfile
      rw [hd]
      rfl
    rw [check_standalone env self w f hsetup hfh hfn hne hfile]
    have hh : World.getHandle
        { w with handles := w.handles ++ [⟨f, 0, false⟩],
                 opens := w.opens + 1 } w.handles.length =
        some ⟨f, 0, false⟩ :=
      getHandle_of_handles _ w.handles ⟨f, 0, false⟩ rfl
    have hdO : World.lookupFs
        { w with handles := w.handles ++ [⟨f, 0, false⟩],
                 opens := w.opens + 1 } f = some d := hd
    rw [inner_check_run env self w.handles.length _ f 0 d hh hdO]
    simp only [hps, hparse, hkill, if_neg, ite_false]
    refine ⟨trivial, ?_, ?_⟩
    · rw [closeHandle_lookupFs, setHandle_lookupFs, setHandle_lookupFs]
      exact hd
    · have hh2 := getHandle_set_open _ w.handles.length _
        (⟨f, min (0 + 16) d.content.data.length, false⟩ : Handle)
        (getHandle_set_open _ w.handles.length _ (⟨f, 0, false⟩ : Handle) hh)
      rw [closeHandle_getHandle _ w.handles.length _ hh2]
      rfl
  · intro i po hfh hh
    rw [check_held env self w i hsetup hfh]
    rw [inner_check_run env self i w f po d hh hd]
    simp only [hps, hparse, hkill, if_neg, ite_false]
    refine ⟨trivial, ?_, ?_⟩
    · rw [setHandle_lookupFs, setHandle_lookupFs]
      exact hd
    · have hh2 := getHandle_set_open _ i _
        (⟨f, min (0 + 16) d.content.data.length, false⟩ : Handle)
        (getHandle_set_open _ i _ (⟨f, 0, false⟩ : Handle) hh)
      rw [hh2]
      rfl

theorem claim_C4_witness :
    (mgrSetup.check envA wStale).2.2 = .ok () ∧
    (mgrHeld.check envA wStaleHeld).2.2 = .ok () :=
  ⟨((claim_C4_esrch_clean envA mgrSetup wStale pidPath fdStale 999 rfl rfl
      rfl rfl rfl rfl).1 rfl).1,
   ((claim_C4_esrch_clean envA mgrHeld wStaleHeld pidPath fdStale 999 rfl rfl
      rfl rfl rfl rfl).2 0 0 rfl rfl).1⟩

/-- C2: a pidfile whose first sixteen bytes, cut at the first newline and
stripped, are non-empty and not parsable as an integer makes check raise an
unreadable-pidfile error carrying the cause, and the file is deleted from
disk as a side effect of that failure. -/
theorem claim_C2_unreadable_deletes (env : Env) (self : PidFile) (w : World)
    (f : String) (d : FileData)
    (hsetup : self._is_setup = true) (hfh : self.fh = none)
    (hfn : self.filename = some f) (hne : (f != "") = true)
    (hd : w.lookupFs f = some d)
    (hps : pidStrOf d ≠ "") (hparse : pyParseInt (pidStrOf d) = none) :
    (self.check env w).2.2 =
      .error (.unreadable ("invalid literal for int: " ++ pidStrOf d)) ∧
    (self.check env w).2.1.lookupFs f = none := by
  have hfile : w.isfile f = true := by
    unfold World.isfile
    rw [hd]
    rfl
  rw [check_standalone env self w f hsetup hfh hfn hne hfile]
  have hh : World.getHandle
      { w with handles := w.handles ++ [⟨f, 0, false⟩],
               opens := w.opens + 1 } w.handles.length =
      some ⟨f, 0, false⟩ :=
    getHandle_of_handles _ w.handles ⟨f, 0, false⟩ rfl
  have hdO : World.lookupFs
      { w with handles := w.handles ++ [⟨f, 0, false⟩],
               opens := w.opens + 1 } f = some d := hd
  rw [inner_check_run env self w.handles.length _ f 0 d hh hdO]
  simp only [hps, hparse, if_neg, ite_false]
  refine ⟨trivial, ?_⟩
  rw [closeHandle_lookupFs]
  have hfile2 : World.isfile
      (({ w with handles := w.handles ++ [⟨f, 0, false⟩],
                 opens := w.opens + 1 } : World).setHandle w.handles.length
            ⟨f, 0, false⟩ |>.setHandle w.handles.length
            ⟨f, min (0 + 16) d.content.data.length, false⟩) f = true := by
    unfold World.isfile
    rw [setHandle_lookupFs, setHandle_lookupFs]
    rw [hdO]
    rfl
  rw [close_some_cleanup self w.handles.length _ f hfn hne hfile2]
  rw [lookupFs_removeFs_self]

theorem claim_C2_witness :
    (mgrSetup.check envA wGarbage).2.2 =
      .error (.unreadable ("invalid literal for int: " ++ pidStrOf fdGarbage)) ∧
    (mgrSetup.check envA wGarbage).2.1.lookupFs pidPath = none :=
  claim_C2_unreadable_deletes envA mgrSetup wGarbage pidPath fdGarbage
    rfl rfl rfl rfl rfl (by decide) rfl

/-- C3: on a manager with advisory locking enabled whose lock acquisition
fails during create, create closes the freshly opened handle, leaves the
existing file and its content untouched, and fails with an already-locked
error carrying the cause. -/
theorem claim_C3_already_locked (env : Env) (self : PidFile) (w : World)
    (f : String) (d : FileData) (cause : String)
    (hsetup : self._is_setup = true) (hfn : self.filename = some f)
    (hlock : self.lock_pidfile = true) (hflock : env.flockErr f = some cause)
    (hd : w.lookupFs f = some d) :
    (self.create env w).2.2 = .error (.alreadyLocked cause) ∧
    (self.create env w).2.1.lookupFs f = some d ∧
    (self.create env w).1.fh = some w.handles.length ∧
    ((self.create env w).2.1.getHandle w.handles.length).map Handle.hclosed =
      some true := by
  unfold PidFile.create
  have hst : _setup env self w = (self, w, .ok ()) := by
    unfold _setup
    rw [if_pos hsetup]
  rw [hst]
  dsimp only
  rw [hfn]
  dsimp only
  have hopen : w.openAppendPlus f =
      (w.handles.length,
       { w with handles := w.handles ++ [⟨f, d.content.data.length, false⟩],
                opens := w.opens + 1 }) := by
    unfold World.openAppendPlus
    rw [hd]
  rw [hopen]
  simp only [create_after_open, hlock, hflock, PidFile.close, hfn, if_true,
    ite_true, eq_self_iff_true, Bool.and_false, Bool.false_eq_true, if_false]
  have hh : World.getHandle
      { w with handles := w.handles ++ [⟨f, d.content.data.length, false⟩],
               opens := w.opens + 1 } w.handles.length =
      some ⟨f, d.content.data.length, false⟩ :=
    getHandle_of_handles _ w.handles _ rfl
  refine ⟨trivial, ?_, trivial, ?_⟩
  · rw [closeHandle_lookupFs]
    exact hd
  · rw [closeHandle_getHandle _ w.handles.length _ hh]
    rfl

theorem claim_C3_witness :
    (mgrSetup.create envLock wGarbage).2.2 =
      .error (.alreadyLocked "Resource temporarily unavailable") ∧
    (mgrSetup.create envLock wGarbage).2.1.lookupFs pidPath =
      some fdGarbage ∧
    (mgrSetup.create envLock wGarbage).1.fh = some 0 ∧
    ((mgrSetup.create envLock wGarbage).2.1.getHandle 0).map Handle.hclosed =
      some true :=
  claim_C3_already_locked envLock mgrSetup wGarbage pidPath fdGarbage
    "Resource temporarily unavailable" rfl rfl rfl rfl rfl

/-! Lemmas for the create round trip. -/

theorem string_nil_append (s : String) : "" ++ s = s := by
  apply String.ext
  rw [String.data_append]
  exact List.nil_append _

theorem fchmodAt_getHandle (w : World) (i m j : Nat) :
    (w.fchmodAt i m).getHandle j = w.getHandle j := by
  unfold World.fchmodAt
  split
  · split
    · exact getHandle_setFs _ _ _ _
    · rfl
  · rfl

theorem fchownAt_getHandle (w : World) (i : Nat) (u g : Int) (j : Nat) :
    (w.fchownAt i u g).getHandle j = w.getHandle j := by
  unfold World.fchownAt
  split
  · split
    · exact getHandle_setFs _ _ _ _
    · rfl
  · rfl

theorem fchmodAt_content (w : World) (i m : Nat) (q : String) :
    ((w.fchmodAt i m).lookupFs q).map FileData.content =
      (w.lookupFs q).map FileData.content := by
  unfold World.fchmodAt
  split
  · rename_i h hh
    split
    · rename_i d hd
      by_cases hq : q = h.hpath
      · rw [hq, lookupFs_setFs_self, hd]
        rfl
      · rw [lookupFs_setFs_ne _ _ _ _ hq]
    · rfl
  · rfl

theorem fchownAt_content (w : World) (i : Nat) (u g : Int) (q : String) :
    ((w.fchownAt i u g).lookupFs q).map FileData.content =
      (w.lookupFs q).map FileData.content := by
  unfold World.fchownAt
  split
  · rename_i h hh
    split
    · rename_i d hd
      by_cases hq : q = h.hpath
      · rw [hq, lookupFs_setFs_self, hd]
        rfl
      · rw [lookupFs_setFs_ne _ _ _ _ hq]
    · rfl
  · rfl

theorem writeback_spec (w : World) (i : Nat) (f : String) (d : FileData)
    (s : String) (hh : w.getHandle i = some ⟨f, 0, false⟩)
    (hd : w.lookupFs f = some d) :
    ((w.truncateAt i).writeAppend i s).seek0 i =
      some (((w.truncateAt i).writeAppend i s).setHandle i ⟨f, 0, false⟩) ∧
    (((w.truncateAt i).writeAppend i s).setHandle i
        ⟨f, 0, false⟩).getHandle i = some ⟨f, 0, false⟩ ∧
    ((((w.truncateAt i).writeAppend i s).setHandle i
        ⟨f, 0, false⟩).lookupFs f).map FileData.content = some s := by
  have htr : w.truncateAt i = w.setFs f ⟨"", d.mode, d.fuid, d.fgid⟩ := by
    unfold World.truncateAt
    rw [hh]
    dsimp only
    rw [hd]
    rfl
  have hh2 : (w.setFs f ⟨"", d.mode, d.fuid, d.fgid⟩).getHandle i =
      some ⟨f, 0, false⟩ := by
    rw [getHandle_setFs]
    exact hh
  have hd2 : (w.setFs f ⟨"", d.mode, d.fuid, d.fgid⟩).lookupFs f =
      some ⟨"", d.mode, d.fuid, d.fgid⟩ := lookupFs_setFs_self _ _ _
  have hwr : (w.truncateAt i).writeAppend i s =
      ((w.setFs f ⟨"", d.mode, d.fuid, d.fgid⟩).setFs f
        ⟨"" ++ s, d.mode, d.fuid, d.fgid⟩).setHandle i
        ⟨f, ("" ++ s).data.length, false⟩ := by
    rw [htr]
    unfold World.writeAppend
    rw [hh2]
    dsimp only
    rw [hd2]
  have hh3 : (((w.setFs f ⟨"", d.mode, d.fuid, d.fgid⟩).setFs f
      ⟨"" ++ s, d.mode, d.fuid, d.fgid⟩).setHandle i
      ⟨f, ("" ++ s).data.length, false⟩).getHandle i =
      some ⟨f, ("" ++ s).data.length, false⟩ := by
    apply getHandle_set_open
    rw [getHandle_setFs, getHandle_setFs]
    exact hh
  refine ⟨?_, ?_, ?_⟩
  · rw [hwr]
    exact seek0_of_open _ i f _ hh3
  · rw [hwr]
    exact getHandle_set_open _ _ _ _ hh3
  · rw [hwr]
    rw [setHandle_lookupFs, setHandle_lookupFs, lookupFs_setFs_self]
    rw [string_nil_append]
    rfl

theorem create_after_open_ok (env : Env) (self2 s1 : PidFile) (W2 w1 : World)
    (f : String) (i : Nat) (po : Nat) (p : Int) (d : FileData)
    (hsetup : self2._is_setup = true) (hfh : self2.fh = some i)
    (hpid : self2.pid = some p)
    (hh : W2.getHandle i = some ⟨f, po, false⟩)
    (hd : W2.lookupFs f = some d)
    (hok : create_after_open env self2 f i W2 = (s1, w1, .ok ())) :
    s1 = self2 ∧
    w1.getHandle i = some ⟨f, 0, false⟩ ∧
    (w1.lookupFs f).map FileData.content = some (pyFormatD p ++ "\n") := by
  unfold create_after_open at hok
  split at hok
  · simp at hok
  · rw [check_held env self2 W2 i hsetup hfh] at hok
    rw [inner_check_run env self2 i W2 f po d hh hd] at hok
    dsimp only at hok
    split at hok
    · simp at hok
    · rename_i trip self3 w3 a heq
      have hfr : self3 = self2 ∧ w3 = (W2.setHandle i ⟨f, 0, false⟩).setHandle
          i ⟨f, min (0 + 16) d.content.data.length, false⟩ := by
        split at heq
        · simp only [Prod.mk.injEq] at heq
          exact ⟨heq.1.symm, heq.2.1.symm⟩
        · split at heq
          · simp at heq
          · split at heq
            · simp only [Prod.mk.injEq] at heq
              exact ⟨heq.1.symm, heq.2.1.symm⟩
            · simp at heq
            · simp at heq
      obtain ⟨hfr1, hfr2⟩ := hfr
      subst hfr1
      subst hfr2
      rw [hpid] at hok
      dsimp only at hok
      generalize hW5 :
        (if (decide (self3.uid ≥ 0) || decide (self3.gid ≥ 0)) = true then
          (if (self3.chmod != 0) = true then
            ((W2.setHandle i ⟨f, 0, false⟩).setHandle i
              ⟨f, min (0 + 16) d.content.data.length, false⟩).fchmodAt
              i self3.chmod
          else
            (W2.setHandle i ⟨f, 0, false⟩).setHandle i
              ⟨f, min (0 + 16) d.content.data.length, false⟩).fchownAt
            i self3.uid self3.gid
        else
          if (self3.chmod != 0) = true then
            ((W2.setHandle i ⟨f, 0, false⟩).setHandle i
              ⟨f, min (0 + 16) d.content.data.length, false⟩).fchmodAt
              i self3.chmod
          else
            (W2.setHandle i ⟨f, 0, false⟩).setHandle i
              ⟨f, min (0 + 16) d.content.data.length, false⟩) = W5 at hok
      have hg5 : W5.getHandle i =
          some ⟨f, min (0 + 16) d.content.data.length, false⟩ := by
        rw [← hW5]
        simp only [apply_ite (fun wX => World.getHandle wX i),
          fchmodAt_getHandle, fchownAt_getHandle, ite_self]
        exact getHandle_set_open _ i _ _ (getHandle_set_open _ i _ _ hh)
      have hc5 : (W5.lookupFs f).map FileData.content = some d.content := by
        rw [← hW5]
        simp only [apply_ite (fun wX => (World.lookupFs wX f).map
          FileData.content), fchmodAt_content, fchownAt_content, ite_self,
          setHandle_lookupFs]
        rw [hd]
        rfl
      obtain ⟨d5, hd5, hcd5⟩ := Option.map_eq_some'.mp hc5
      rw [seek0_of_open W5 i f _ hg5] at hok
      dsimp only at hok
      have hh6 : (W5.setHandle i ⟨f, 0, false⟩).getHandle i =
          some ⟨f, 0, false⟩ := getHandle_set_open _ _ _ _ hg5
      have hd6 : (W5.setHandle i ⟨f, 0, false⟩).lookupFs f = some d5 := by
        rw [setHandle_lookupFs]
        exact hd5
      have hwb := writeback_spec (W5.setHandle i ⟨f, 0, false⟩) i f d5
        (pyFormatD p ++ "\n") hh6 hd6
      rw [hwb.1] at hok
      dsimp only at hok
      simp only [Prod.mk.injEq] at hok
      obtain ⟨h1, h2, -⟩ := hok
      refine ⟨h1.symm, ?_, ?_⟩
      · rw [← h2]
        exact hwb.2.1
      · rw [← h2]
        exact hwb.2.2

theorem create_after_setup (env : Env) (self s1 : PidFile) (w w1 : World)
    (hst : _setup env self w = (s1, w1, .ok ())) :
    self.create env w = s1.create env w1 := by
  unfold PidFile.create
  rw [hst]
  have hst2 : _setup env s1 w1 = (s1, w1, .ok ()) := by
    unfold _setup
    rw [if_pos (setup_sets_is_setup env self s1 w w1 () hst)]
  rw [hst2]

theorem create_setup_ok (env : Env) (self s1 : PidFile) (w w1 : World)
    (f : String) (p : Int)
    (hsetup : self._is_setup = true) (hfn : self.filename = some f)
    (hpid : self.pid = some p)
    (hok : self.create env w = (s1, w1, .ok ())) :
    s1 = { self with fh := some w.handles.length } ∧
    w1.getHandle w.handles.length = some ⟨f, 0, false⟩ ∧
    (w1.lookupFs f).map FileData.content = some (pyFormatD p ++ "\n") := by
  unfold PidFile.create at hok
  have hst : _setup env self w = (self, w, .ok ()) := by
    unfold _setup
    rw [if_pos hsetup]
  rw [hst] at hok
  dsimp only at hok
  rw [hfn] at hok
  dsimp only at hok
  unfold World.openAppendPlus at hok
  rcases hlu : w.lookupFs f with _ | d0
  · rw [hlu] at hok
    dsimp only [World.setFs] at hok
    rw [← hfn] at hok
    refine create_after_open_ok env _ s1 _ w1 f _ 0 p ⟨"", 0o644, -1, -1⟩
      ?_ ?_ ?_ ?_ ?_ hok
    · exact hsetup
    · rfl
    · exact hpid
    · exact getHandle_of_handles _ w.handles _ rfl
    · unfold World.lookupFs
      simp
  · rw [hlu] at hok
    dsimp only at hok
    rw [← hfn] at hok
    refine create_after_open_ok env _ s1 _ w1 f _ d0.content.data.length p d0
      ?_ ?_ ?_ ?_ ?_ hok
    · exact hsetup
    · rfl
    · exact hpid
    · exact getHandle_of_handles _ w.handles _ rfl
    · exact hlu

theorem setup_fresh_spec (env : Env) (self sA : PidFile) (w wA : World)
    (u : Unit) (hfresh : self.filename = none) (hns : self._is_setup = false)
    (hst : _setup env self w = (sA, wA, .ok u)) :
    ∃ fn, sA = { self with
        pid := some env.getpid,
        filename := some fn,
        _is_setup := true } ∧ wA.handles = w.handles := by
  unfold _setup at hst
  rw [if_neg (by simp [hns]), hfresh] at hst
  dsimp only at hst
  rcases hmk : _make_filename env
      { self with pid := some env.getpid, filename := none } w with ⟨wB, rB⟩
  rw [hmk] at hst
  cases rB with
  | error e => simp at hst
  | ok fn =>
      dsimp only at hst
      simp only [Prod.mk.injEq] at hst
      obtain ⟨h1, h2, -⟩ := hst
      refine ⟨fn, ?_, ?_⟩
      · rw [← h1]
      · rw [← h2]
        have hmh := make_filename_handles env
          { self with pid := some env.getpid, filename := none } w
        rw [hmk] at hmh
        exact hmh

theorem create_fresh_ok (env : Env) (self s1 : PidFile) (w w1 : World)
    (hfresh : self.filename = none) (hns : self._is_setup = false)
    (hok : self.create env w = (s1, w1, .ok ())) :
    ∃ f, s1.filename = some f ∧ s1.pid = some env.getpid ∧
      s1._is_setup = true ∧ s1.fh = some w.handles.length ∧
      w1.getHandle w.handles.length = some ⟨f, 0, false⟩ ∧
      (w1.lookupFs f).map FileData.content =
        some (pyFormatD env.getpid ++ "\n") := by
  rcases hst : _setup env self w with ⟨sA, wA, rA⟩
  cases rA with
  | error e =>
      unfold PidFile.create at hok
      rw [hst] at hok
      simp at hok
  | ok u =>
      cases u
      rw [create_after_setup env self sA w wA hst] at hok
      obtain ⟨fn, hsA, hwA⟩ := setup_fresh_spec env self sA w wA ()
        hfresh hns hst
      subst hsA
      have hspec := create_setup_ok env _ s1 wA w1 fn env.getpid rfl rfl rfl
        hok
      rw [hwA] at hspec
      obtain ⟨h1, h2, h3⟩ := hspec
      subst h1
      exact ⟨fn, rfl, rfl, rfl, rfl, h2, h3⟩

theorem pyFormatD_nonneg (p : Int) (h : 0 ≤ p) :
    pyFormatD p = natStr p.natAbs := by
  unfold pyFormatD
  rw [if_neg (not_lt.mpr h)]

theorem pidStrOf_pidfile (d : FileData) (m : Nat)
    (hcontent : d.content = natStr m ++ "\n")
    (hlen : (natStr m).data.length ≤ 15) : pidStrOf d = natStr m := by
  unfold pidStrOf readStr
  rw [hcontent]
  exact pid_str_of_pidfile_content m hlen

theorem check_running (env : Env) (self : PidFile) (w : World) (f : String)
    (i po : Nat) (m : Nat) (d : FileData)
    (hsetup : self._is_setup = true) (hfh : self.fh = some i)
    (hh : w.getHandle i = some ⟨f, po, false⟩)
    (hd : w.lookupFs f = some d)
    (hcontent : d.content = natStr m ++ "\n")
    (hlen : (natStr m).data.length ≤ 15)
    (hkill : env.kill0 (m : Int) = .ok) :
    (self.check env w).2.2 =
      .error (.alreadyRunning
        ("Program already running with pid: " ++ natStr m)) := by
  rw [check_held env self w i hsetup hfh]
  rw [inner_check_run env self i w f po d hh hd]
  have hps : pidStrOf d = natStr m := pidStrOf_pidfile d m hcontent hlen
  have hne : ¬(pidStrOf d = "") := by
    rw [hps]
    exact natStr_ne_empty m
  have hparse : pyParseInt (pidStrOf d) = some (m : Int) := by
    rw [hps]
    exact pyParseInt_natStr m
  simp only [hne, hparse, hkill, if_neg, ite_false]
  have hfmt : pyFormatD (m : Int) = natStr m := by
    rw [pyFormatD_nonneg _ (Int.ofNat_nonneg m)]
    simp

  rw [hfmt]

/-- C1: for every fresh manager on which create succeeds, the pidfile's
entire content is the decimal current process id followed by a single
newline, and a subsequent check against that same live process (one whose
null-signal probe succeeds) raises already-running naming that pid. -/
theorem claim_C1_create_roundtrip (env : Env) (self s1 : PidFile)
    (w w1 : World)
    (hfresh : self.filename = none) (hns : self._is_setup = false)
    (hpidnn : 0 ≤ env.getpid)
    (hlen : (natStr env.getpid.natAbs).data.length ≤ 15)
    (hkill : env.kill0 env.getpid = .ok)
    (hok : self.create env w = (s1, w1, .ok ())) :
    (∃ f, s1.filename = some f ∧
       (w1.lookupFs f).map FileData.content =
         some (pyFormatD env.getpid ++ "\n")) ∧
    (s1.check env w1).2.2 =
      .error (.alreadyRunning
        ("Program already running with pid: " ++ pyFormatD env.getpid)) := by
  obtain ⟨f, hf1, hpid1, hs1, hfh1, hh1, hc1⟩ :=
    create_fresh_ok env self s1 w w1 hfresh hns hok
  obtain ⟨d, hd, hcd⟩ := Option.map_eq_some'.mp hc1
  have hfmt : pyFormatD env.getpid = natStr env.getpid.natAbs :=
    pyFormatD_nonneg env.getpid hpidnn
  have hkill2 : env.kill0 ((env.getpid.natAbs : Nat) : Int) = .ok := by
    rw [Int.natAbs_of_nonneg hpidnn]
    exact hkill
  refine ⟨⟨f, hf1, hc1⟩, ?_⟩
  rw [hfmt]
  exact check_running env s1 w1 f w.handles.length 0 env.getpid.natAbs d
    hs1 hfh1 hh1 hd (by rw [hcd, hfmt]) hlen hkill2

theorem claim_C1_witness :
    (∃ f, mgrCreated.filename = some f ∧
       (wCreated.lookupFs f).map FileData.content =
         some (pyFormatD envA.getpid ++ "\n")) ∧
    (mgrCreated.check envA wCreated).2.2 =
      .error (.alreadyRunning
        ("Program already running with pid: " ++ pyFormatD envA.getpid)) :=
  claim_C1_create_roundtrip envA PidFile.initDefault mgrCreated w0 wCreated
    rfl rfl (by decide) (by decide) rfl rfl

end PidSpec
